import Mathlib

/-
  Verification development for the Elasticsearch signal-processor engine
  (cl/lib/es_signal_processor.py).

  The Django/Elasticsearch environment is shallowly embedded:
  * model instances become a structure of attribute-valuation functions,
  * the index and the relational store become an `Env` of lookup functions,
  * every `.delay` / `.apply_async` enqueue becomes a `Task` value appended
    to a task log, so a handler's effect is the list of tasks it enqueues,
  * a Python exception that escapes a function makes its result `none`.
-/

namespace ESSync

/-- Python attribute values as they appear on model instances: `None`,
booleans, integers (also primary keys), strings, or a related model object
carrying its primary key. -/
inductive Value where
  | vNone
  | vBool (b : Bool)
  | vInt (n : Int)
  | vStr (s : String)
  | vObj (pk : Int)
deriving DecidableEq, Repr

/-- Python truthiness of a `Value`. -/
def Value.truthy : Value → Bool
  | .vNone => false
  | .vBool b => b
  | .vInt n => n != 0
  | .vStr s => !s.isEmpty
  | .vObj _ => true

/-- Reading `.pk` off a value: the code reaches this only when the value is a
truthy ForeignKey value, i.e. a related model object. -/
def Value.pkAttr : Value → Value
  | .vObj pk => .vInt pk
  | v => v

/-- The model classes `es_signal_processor.py` branches on; every other
monitored model is `OtherModel`. -/
inductive ModelName where
  | Person
  | ABARating
  | PoliticalAffiliation
  | School
  | Education
  | Docket
  | Audio
  | BankruptcyInformation
  | OtherModel (s : String)
deriving DecidableEq, Repr

/-- `main_model.__name__.lower()`. -/
def ModelName.lowerName : ModelName → String
  | .Person => "person"
  | .ABARating => "abarating"
  | .PoliticalAffiliation => "politicalaffiliation"
  | .School => "school"
  | .Education => "education"
  | .Docket => "docket"
  | .Audio => "audio"
  | .BankruptcyInformation => "bankruptcyinformation"
  | .OtherModel s => s

/-- The Elasticsearch document classes imported by the signal processor. -/
inductive ESDocClass where
  | AudioDocument
  | ParentheticalGroupDocument
  | ESRECAPDocument
  | DocketDocument
  | PersonDocument
  | PositionDocument
deriving DecidableEq, Repr

/-- Modelled from the spec: `ES_CHILD_ID` (cl.search.documents, not under
src/) — "may be a root document or a child document scoped under a parent
(sharing an index, disambiguated by a namespacing function over the numeric
identifier)". A document id is either the raw primary key or the primary key
namespaced for the Position/RECAP child-document id spaces. -/
inductive DocId where
  | root (pk : Int)
  | position (pk : Int)
  | recap (pk : Int)
deriving DecidableEq, Repr

/-- A handle on an Elasticsearch document returned by a point lookup. -/
structure DocRef where
  cls : ESDocClass
  docId : DocId
deriving DecidableEq, Repr

/-- A django-model-utils FieldTracker: the declared tracked field names and
the snapshot of previously observed values (raw identifiers for relations). -/
structure Tracker where
  fields : List String
  previous : String → Value

/-- Result of reading a related-object attribute off an inst. -/
inductive RelatedLookup where
  | attrFound (pk : Int)
  | attrMissing
  | raisesObjectDoesNotExist

/-- A monitored model inst, shallowly embedded as its attribute
valuations: `getattrValue` is `getattr(inst, field)` for plain reads,
`callMethod` is `getattr(inst, field)()` for display accessors,
`metaInternalType` is `_meta.get_field(field).get_internal_type()` with
`none` meaning `FieldDoesNotExist`, `typeAttr` is `inst.type` with `none`
meaning `AttributeError`, and `relatedAttr` reads a related object. -/
structure Instance where
  modelName : ModelName
  pk : Int
  getattrValue : String → Value
  callMethod : String → Value
  hasAttr : String → Bool
  classProp : String → Bool
  metaInternalType : String → Option String
  typeAttr : Option String
  relatedAttr : String → RelatedLookup
  es_oa_field_tracker : Option Tracker
  es_pa_field_tracker : Option Tracker
  es_rd_field_tracker : Option Tracker
  es_p_field_tracker : Option Tracker

/-- The external environment: the index (`indexHas` is a point
exists/get-by-id check), the relational store (`dbFilter m q pk` is the list
of primary keys returned by `m.objects.filter(**{q: inst})` for the
inst with primary key `pk`, resolved through `resolve`), the documents'
registered `prepare_<field>` projection methods, and each document class's
index name. -/
structure Env where
  indexHas : ESDocClass → DocId → Bool
  dbFilter : ModelName → String → Int → List Int
  resolve : Int → Instance
  prepareMethod : ESDocClass → String → Option (Instance → Value)
  indexName : ESDocClass → String

/-- A celery chain step; the `_si` suffix is an immutable signature (ignores
the previous result), the `_s` suffix receives the previous step's result. -/
inductive ChainStep where
  | save_document_in_es_si (pk : Int) (cls : ESDocClass)
  | send_or_schedule_alerts_s (index_name : String)
  | process_percolator_response_s
deriving DecidableEq, Repr

/-- Whether a chain step is declared with a result-consuming signature
(`.s`) rather than an immutable signature (`.si`): a `.s` step receives the
previous step's result as its input, so it cannot start before that result
is available. -/
def requiresPreviousResult : ChainStep → Bool
  | .save_document_in_es_si _ _ => false
  | .send_or_schedule_alerts_s _ => true
  | .process_percolator_response_s => true

/-- An asynchronous work unit handed to the task queue. -/
inductive Task where
  | save_document_in_es (pk : Int) (cls : ESDocClass)
  | update_document_in_es (doc : DocRef) (fields : List (String × Value))
  | update_child_documents_by_query (cls : ESDocClass) (parentPk : Int)
      (fields : List String) (fieldsMap : Option (List (String × List String)))
  | remove_doc_from_es_index (cls : ESDocClass) (pk : Int)
  | apply_async_chain (steps : List ChainStep)
deriving DecidableEq, Repr

/-- A `fields_map`: an ordered dict from a source field name (or its
`get_<field>_display` variant) to the list of target document field names. -/
abbrev FieldsMap := List (String × List String)

/-- Ordered-dict lookup `m[k]`: `none` is a `KeyError`. -/
def assocLookup {α : Type} (m : List (String × α)) (k : String) : Option α :=
  (m.find? (fun p => p.fst == k)).map Prod.snd

/-- Python dict insertion `d[k] = v`: overwrite the existing key in place,
otherwise append. -/
def dictInsert (d : List (String × Value)) (k : String) (v : Value) :
    List (String × Value) :=
  if (d.map Prod.fst).contains k then
    d.map (fun p => if p.fst == k then (k, v) else p)
  else
    d ++ [(k, v)]

/-- `s.startswith(p)`: prefix test on the underlying character list
(structural, so it evaluates definitionally). -/
def strStartsWith (s p : String) : Bool := p.data.isPrefixOf s.data

/-- `s.endswith(p)`: suffix test on the underlying character list
(structural, so it evaluates definitionally). -/
def strEndsWith (s p : String) : Bool := p.data.isSuffixOf s.data

/-- The tracker chosen by the `es_document` dispatch at the top of
`updated_fields` (`getattr(inst, "es_*_field_tracker", None)`). -/
def trackedSetFor (inst : Instance) (es_document : ESDocClass) :
    Option Tracker :=
  match es_document with
  | .AudioDocument => inst.es_oa_field_tracker
  | .ParentheticalGroupDocument => inst.es_pa_field_tracker
  | .ESRECAPDocument => inst.es_rd_field_tracker
  | .DocketDocument => inst.es_rd_field_tracker
  | .PositionDocument => inst.es_p_field_tracker
  | .PersonDocument => none

/-- The per-field loop body of `updated_fields`: read the current value;
when the field has model metadata and is a truthy ForeignKey whose name does
not end in `_id`, compare the related object's `pk`; on `FieldDoesNotExist`
skip the field (`none`) only when it is neither an inst attribute nor a
class property; otherwise report whether the value differs from the
snapshot. -/
def fieldChanged (inst : Instance) (tracked_set : Tracker)
    (field : String) : Option Bool :=
  let current_value := inst.getattrValue field
  match inst.metaInternalType field with
  | some internal =>
    let resolved :=
      if internal == "ForeignKey" && current_value.truthy
          && !(strEndsWith field "_id") then
        current_value.pkAttr
      else
        current_value
    some (resolved != tracked_set.previous field)
  | none =>
    if !inst.hasAttr field && !inst.classProp field then
      none
    else
      some (current_value != tracked_set.previous field)

/-- The accumulator step of the `updated_fields` loop: append the field when
it changed, keep the accumulator otherwise (also when the field was
skipped). -/
def changedFieldsStep (inst : Instance) (tracked_set : Tracker)
    (changed_fields : List String) (field : String) : List String :=
  match fieldChanged inst tracked_set field with
  | some true => changed_fields ++ [field]
  | _ => changed_fields

/-- `updated_fields(inst, es_document)`: the tracked fields whose
current resolved value differs from the tracker's snapshot; empty when no
tracker is configured for the pair. -/
def updated_fields (inst : Instance) (es_document : ESDocClass) :
    List String :=
  match trackedSetFor inst es_document with
  | none => []
  | some tracked_set =>
    tracked_set.fields.foldl (changedFieldsStep inst tracked_set) []

/-- The loop body of `get_fields_to_update`: keep the changed field when it
is a key of the map, and additionally its `get_<field>_display` variant when
that is a key. -/
def fieldsToUpdateStep (fields_map : FieldsMap)
    (fields_to_update : List String) (field : String) : List String :=
  let fields_to_update :=
    if (fields_map.map Prod.fst).contains field then
      fields_to_update ++ [field]
    else
      fields_to_update
  if (fields_map.map Prod.fst).contains ("get_" ++ field ++ "_display") then
    fields_to_update ++ ["get_" ++ field ++ "_display"]
  else
    fields_to_update

/-- `get_fields_to_update(changed_fields, fields_map)`: keep each changed
field present among the map's keys, and additionally its
`get_<field>_display` variant when that is a key. -/
def get_fields_to_update (changed_fields : List String)
    (fields_map : FieldsMap) : List String :=
  changed_fields.foldl (fieldsToUpdateStep fields_map) []

/-- The per-field body of `document_fields_to_update`: look up the target
document fields (`none` is the `KeyError`), then for each target field
either call the display accessor, the document's registered `prepare_`
method on the main object, or read the attribute directly. -/
def docFieldsStep (env : Env) (main_doc : DocRef) (main_object : Instance)
    (inst : Instance) (fields_map : FieldsMap)
    (fields_to_update : List (String × Value)) (field : String) :
    Option (List (String × Value)) :=
  match assocLookup fields_map field with
  | none => none
  | some document_fields =>
    some (document_fields.foldl (fun acc doc_field =>
      if strStartsWith field "get_" && strEndsWith field "_display" then
        dictInsert acc doc_field (inst.callMethod field)
      else
        match env.prepareMethod main_doc.cls doc_field with
        | some prepare_method =>
          dictInsert acc doc_field (prepare_method main_object)
        | none =>
          dictInsert acc doc_field (inst.getattrValue field))
      fields_to_update)

/-- `document_fields_to_update(main_doc, main_object, field_list, inst,
fields_map)`: fold `docFieldsStep` over the field list, starting from the
empty update dict. -/
def document_fields_to_update (env : Env) (main_doc : DocRef)
    (main_object : Instance) (field_list : List String) (inst : Instance)
    (fields_map : FieldsMap) : Option (List (String × Value)) :=
  field_list.foldlM (docFieldsStep env main_doc main_object inst fields_map)
    []

/-- The document id used by `get_or_create_doc`: namespaced for the
Position/RECAP child documents, the raw primary key otherwise. -/
def docIdFor (es_document : ESDocClass) (inst : Instance) : DocId :=
  match es_document with
  | .PositionDocument => .position inst.pk
  | .ESRECAPDocument => .recap inst.pk
  | _ => .root inst.pk

/-- `get_or_create_doc(es_document, inst, avoid_creation)`: point
lookup; on `NotFoundError`, schedule a full-creation task unless creation is
suppressed, and return `None`. The second component is the task log. -/
def get_or_create_doc (env : Env) (es_document : ESDocClass)
    (inst : Instance) (avoid_creation : Bool) :
    Option DocRef × List Task :=
  let doc_id := docIdFor es_document inst
  if env.indexHas es_document doc_id then
    (some ⟨es_document, doc_id⟩, [])
  else if !avoid_creation then
    (none, [.save_document_in_es inst.pk es_document])
  else
    (none, [])

/-- One `(query, fields_map)` arm of the `match` in `update_es_documents`,
in the source's declared order: Person→Position via the `person` query path
dispatches one bulk update-children task; ABARating/PoliticalAffiliation/
School→Position and Person→RECAP dispatch one bulk task per related parent;
Docket→RECAP one bulk task; otherwise iterate the filtered main objects and
patch each existing document. -/
def routeSaveEntry (env : Env) (main_model : ModelName)
    (es_document : ESDocClass) (inst : Instance) (query : String)
    (fields_map : FieldsMap) (fields_to_update : List String) :
    Option (List Task) :=
  if inst.modelName == .Person && es_document == .PositionDocument
      && query == "person" then
    some [.update_child_documents_by_query es_document inst.pk
      fields_to_update (some fields_map)]
  else if (inst.modelName == .ABARating
      || inst.modelName == .PoliticalAffiliation
      || inst.modelName == .School) && es_document == .PositionDocument then
    some ((env.dbFilter .Person query inst.pk).map (fun person =>
      .update_child_documents_by_query es_document person
        fields_to_update (some fields_map)))
  else if inst.modelName == .Docket && es_document == .ESRECAPDocument then
    some [.update_child_documents_by_query es_document inst.pk
      fields_to_update (some fields_map)]
  else if inst.modelName == .Person && es_document == .ESRECAPDocument then
    some ((env.dbFilter .Docket query inst.pk).map (fun rel_docket =>
      .update_child_documents_by_query es_document rel_docket
        fields_to_update (some fields_map)))
  else
    (env.dbFilter main_model query inst.pk).foldlM (fun tasks mpk =>
      let main_object := env.resolve mpk
      let r := get_or_create_doc env es_document main_object false
      match r.fst with
      | none => some (tasks ++ r.snd)
      | some main_doc =>
        if !fields_to_update.isEmpty then
          match document_fields_to_update env main_doc main_object
              fields_to_update inst fields_map with
          | none => none
          | some d =>
            some (tasks ++ r.snd ++ [.update_document_in_es main_doc d])
        else
          some (tasks ++ r.snd)) []

/-- `update_es_documents(main_model, es_document, instance, created,
mapping_fields)`: return immediately for a freshly created instance or when
no tracked field changed; otherwise route every `(query, fields_map)` entry. -/
def update_es_documents (env : Env) (main_model : ModelName)
    (es_document : ESDocClass) (inst : Instance) (created : Bool)
    (mapping_fields : List (String × FieldsMap)) : Option (List Task) :=
  if created then
    some []
  else
    let changed_fields := updated_fields inst es_document
    if changed_fields.isEmpty then
      some []
    else
      mapping_fields.foldlM (fun tasks entry =>
        (routeSaveEntry env main_model es_document inst entry.fst entry.snd
          (get_fields_to_update changed_fields entry.snd)).map
          (fun t => tasks ++ t)) []

/-- `avoid_es_audio_indexing(instance, es_document, update_fields)`: abort
indexing for an Audio instance whose document does not exist in the index
when `update_fields` is falsy or lacks `processing_complete`. -/
def avoid_es_audio_indexing (env : Env) (inst : Instance)
    (es_document : ESDocClass) (update_fields : Option (List String)) :
    Bool :=
  let uf_truthy := match update_fields with
    | none => false
    | some l => !l.isEmpty
  let has_flag := match update_fields with
    | none => false
    | some l => l.contains "processing_complete"
  inst.modelName == .Audio
    && !(env.indexHas es_document (.root inst.pk))
    && (!uf_truthy || (uf_truthy && !has_flag))

/-- Modelled from the spec: the `elasticsearch_enabled` decorator
(cl.lib.elasticsearch_utils, not under src/) — "A global disable toggle
short-circuits all handlers before any enqueue, raising nothing." -/
def elasticsearch_enabled (es_enabled : Bool) (body : Option (List Task)) :
    Option (List Task) :=
  if es_enabled then body else some []

/-- `ESSignalProcessor.handle_save`: for a non-created instance run the
tracked-field update routing; when the save mapping for the sender is empty,
either abort through the Audio suppression gate or enqueue the three-step
celery chain (save document, send or schedule alerts, process percolator
response). -/
def handle_save (env : Env) (es_enabled : Bool) (main_model : ModelName)
    (es_document : ESDocClass) (inst : Instance) (created : Bool)
    (update_fields : Option (List String))
    (mapping_fields : List (String × FieldsMap)) : Option (List Task) :=
  elasticsearch_enabled es_enabled
    (match (if !created then
        update_es_documents env main_model es_document inst created
          mapping_fields
      else some []) with
    | none => none
    | some t1 =>
      if mapping_fields.isEmpty then
        if avoid_es_audio_indexing env inst es_document update_fields then
          some t1
        else
          some (t1 ++ [.apply_async_chain
            [.save_document_in_es_si inst.pk es_document,
             .send_or_schedule_alerts_s (env.indexName es_document),
             .process_percolator_response_s]])
      else
        some t1)

/-- `update_m2m_field_in_es_document(instance, es_document, affected_field)`:
fetch or schedule the document; when present, re-project the affected field
with the document's `prepare_` method (an `AttributeError` — `none` — when
no such method exists, since `getattr` is called without a default) and
enqueue a single-field overwrite. -/
def update_m2m_field_in_es_document (env : Env) (inst : Instance)
    (es_document : ESDocClass) (affected_field : String) :
    Option (List Task) :=
  let r := get_or_create_doc env es_document inst false
  match r.fst with
  | none => some r.snd
  | some document =>
    match env.prepareMethod document.cls affected_field with
    | none => none
    | some prepare_method =>
      some (r.snd ++ [.update_document_in_es document
        [(affected_field, prepare_method inst)]])

/-- The per-main-object body of the filtered branch of
`update_remove_m2m_documents`. -/
def m2mFilteredStep (env : Env) (es_document : ESDocClass)
    (affected_field : String) (ts : List Task) (mpk : Int) :
    Option (List Task) :=
  (update_m2m_field_in_es_document env (env.resolve mpk) es_document
    affected_field).map (fun t => ts ++ t)

/-- `update_remove_m2m_documents(main_model, es_document, instance,
mapping_fields, affected_field)`: per mapping entry, update the instance
itself when the key names the main model, otherwise every main object
related through the key. -/
def update_remove_m2m_documents (env : Env) (main_model : ModelName)
    (es_document : ESDocClass) (inst : Instance)
    (mapping_fields : List (String × FieldsMap)) (affected_field : String) :
    Option (List Task) :=
  mapping_fields.foldlM (fun tasks entry =>
    if main_model.lowerName != entry.fst then
      (env.dbFilter main_model entry.fst inst.pk).foldlM
        (m2mFilteredStep env es_document affected_field) tasks
    else
      (update_m2m_field_in_es_document env inst es_document
        affected_field).map (fun t => tasks ++ t)) []

/-- `ESSignalProcessor.handle_m2m`: only `post_add` and `post_remove`
actions dispatch; per mapping entry the affected field is the first key of
its `fields_map` (an `IndexError` — `none` — when that map is empty). -/
def handle_m2m (env : Env) (es_enabled : Bool) (main_model : ModelName)
    (es_document : ESDocClass) (inst : Instance) (action : String)
    (mapping_fields : List (String × FieldsMap)) : Option (List Task) :=
  elasticsearch_enabled es_enabled
    (if action == "post_add" || action == "post_remove" then
      mapping_fields.foldlM (fun tasks entry =>
        match entry.snd.map Prod.fst with
        | [] => none
        | affected_field :: _ =>
          (update_remove_m2m_documents env main_model es_document inst
            mapping_fields affected_field).map (fun t => tasks ++ t)) []
    else
      some [])

/-- The per-parent loop body of `update_reverse_related_documents`: look up
the parent's document with creation suppressed; when present, recompute the
affected fields (via the registered `prepare_` method or a direct attribute
read) and enqueue one partial update; when absent, skip. -/
def reverseParentStep (env : Env) (es_document : ESDocClass)
    (inst : Instance) (affected_fields : List String) (tasks : List Task)
    (mpk : Int) : List Task :=
  let main_object := env.resolve mpk
  let r := get_or_create_doc env es_document main_object true
  match r.fst with
  | none => tasks ++ r.snd
  | some main_doc =>
    let fields_to_update := affected_fields.foldl (fun acc field =>
      match env.prepareMethod main_doc.cls field with
      | some prepare_method =>
        dictInsert acc field (prepare_method main_object)
      | none =>
        dictInsert acc field (inst.getattrValue field)) []
    tasks ++ r.snd ++ [.update_document_in_es main_doc fields_to_update]

/-- `update_reverse_related_documents(main_model, es_document, instance,
query_string, affected_fields)`: patch each related parent whose document
already exists (creation suppressed); then, for the reverse-related types
with a configured second-level bulk child update, enqueue bulk
update-children tasks regardless of the parent documents' presence. -/
def update_reverse_related_documents (env : Env) (main_model : ModelName)
    (es_document : ESDocClass) (inst : Instance) (query_string : String)
    (affected_fields : List String) : Option (List Task) :=
  let parent_tasks := (env.dbFilter main_model query_string inst.pk).foldl
    (reverseParentStep env es_document inst affected_fields) []
  if (inst.modelName == .ABARating
      || inst.modelName == .PoliticalAffiliation
      || inst.modelName == .Education)
      && es_document == .PersonDocument then
    some (parent_tasks ++
      (env.dbFilter .Person query_string inst.pk).map (fun person =>
        .update_child_documents_by_query .PositionDocument person
          affected_fields none))
  else if inst.modelName == .BankruptcyInformation
      && es_document == .DocketDocument then
    match inst.relatedAttr "docket" with
    | .attrFound dpk =>
      some (parent_tasks ++ [.update_child_documents_by_query
        .ESRECAPDocument dpk affected_fields none])
    | _ => none
  else
    some parent_tasks

/-- `prepare_and_update_fields(affected_fields, main_doc, main_object)`:
re-project every affected field that has a registered `prepare_` method and
enqueue one partial update with the collected values. -/
def prepare_and_update_fields (env : Env) (affected_fields : List String)
    (main_doc : DocRef) (main_object : Instance) : List Task :=
  let fields_to_update := affected_fields.foldl (fun acc field =>
    match env.prepareMethod main_doc.cls field with
    | none => acc
    | some prepare_method =>
      dictInsert acc field (prepare_method main_object)) []
  [.update_document_in_es main_doc fields_to_update]

/-- `delete_reverse_related_documents(main_model, es_document, instance,
query_string, affected_fields)`: on deletion of the related record, patch
the parent document (creation suppressed) and, for Person/Docket parents,
bulk-update their child documents; otherwise patch every filtered parent. -/
def delete_reverse_related_documents (env : Env) (main_model : ModelName)
    (es_document : ESDocClass) (inst : Instance) (query_string : String)
    (affected_fields : List String) : List Task :=
  if inst.modelName == .Person && es_document == .PersonDocument then
    let r := get_or_create_doc env es_document inst true
    match r.fst with
    | some main_doc =>
      r.snd ++ prepare_and_update_fields env affected_fields main_doc inst
        ++ [.update_child_documents_by_query .PositionDocument inst.pk
            affected_fields none]
    | none => r.snd
  else if inst.modelName == .Docket && es_document == .DocketDocument then
    let r := get_or_create_doc env es_document inst true
    match r.fst with
    | some main_doc =>
      r.snd ++ prepare_and_update_fields env affected_fields main_doc inst
        ++ [.update_child_documents_by_query .ESRECAPDocument inst.pk
            affected_fields none]
    | none => r.snd
  else
    (env.dbFilter main_model query_string inst.pk).foldl (fun tasks mpk =>
      let main_object := env.resolve mpk
      let r := get_or_create_doc env es_document main_object true
      match r.fst with
      | some main_doc =>
        tasks ++ r.snd
          ++ prepare_and_update_fields env affected_fields main_doc
              main_object
      | none => tasks ++ r.snd) []

/-- The `affected_fields` lookup of the reverse handlers:
`fields_map[instance.type]`, falling back to `fields_map["all"]` on
`KeyError`/`AttributeError`; `none` is the uncaught `KeyError` when `"all"`
is also absent. -/
def affectedFieldsFor (inst : Instance)
    (fields_map : List (String × List String)) : Option (List String) :=
  let first := match inst.typeAttr with
    | none => none
    | some t => assocLookup fields_map t
  match first with
  | some fs => some fs
  | none => assocLookup fields_map "all"

/-- The loop of `ESSignalProcessor.handle_reverse_actions_delete`, carrying
the (rebindable) `instance` and the task log: per entry, resolve the
affected fields, then traverse the last segment of the query path —
`ObjectDoesNotExist` makes the whole handler return silently with the tasks
enqueued so far. -/
def reverseDeleteLoop (env : Env) (main_model : ModelName)
    (es_document : ESDocClass) :
    Instance → List (String × List (String × List String)) → List Task →
    Option (List Task)
  | _, [], tasks => some tasks
  | inst, entry :: rest, tasks =>
    match affectedFieldsFor inst entry.snd with
    | none => none
    | some affected_fields =>
      let inst_field := (entry.fst.splitOn "__").getLastD entry.fst
      match inst.relatedAttr inst_field with
      | .raisesObjectDoesNotExist => some tasks
      | .attrMissing =>
        reverseDeleteLoop env main_model es_document inst rest
          (tasks ++ delete_reverse_related_documents env main_model
            es_document inst entry.fst affected_fields)
      | .attrFound p =>
        reverseDeleteLoop env main_model es_document (env.resolve p) rest
          (tasks ++ delete_reverse_related_documents env main_model
            es_document (env.resolve p) entry.fst affected_fields)

/-- `ESSignalProcessor.handle_reverse_actions_delete`. -/
def handle_reverse_actions_delete (env : Env) (es_enabled : Bool)
    (main_model : ModelName) (es_document : ESDocClass) (inst : Instance)
    (mapping_fields : List (String × List (String × List String))) :
    Option (List Task) :=
  elasticsearch_enabled es_enabled
    (reverseDeleteLoop env main_model es_document inst mapping_fields [])

/-- The (instance model, document class) pairs for which
`update_reverse_related_documents` performs the second-level bulk child
update after the per-parent loop. -/
def secondLevelBulkCombo (m : ModelName) (d : ESDocClass) : Bool :=
  ((m == .ABARating || m == .PoliticalAffiliation || m == .Education)
    && d == .PersonDocument)
  || (m == .BankruptcyInformation && d == .DocketDocument)

/-- Whether a task is a bulk update-children-by-query task. -/
def isBulkChildTask : Task → Bool
  | .update_child_documents_by_query _ _ _ _ => true
  | _ => false

/-! ### Concrete sample instances and environments -/

/-- A tracker over the single field `name`, whose snapshot holds `"old"`. -/
def sampleTracker : Tracker :=
  { fields := ["name"], previous := fun _ => Value.vStr "old" }

/-- A Person instance whose current `name` is `"new"` (so `name` changed). -/
def samplePerson : Instance :=
  { modelName := .Person
    pk := 7
    getattrValue := fun _ => Value.vStr "new"
    callMethod := fun _ => Value.vNone
    hasAttr := fun _ => true
    classProp := fun _ => false
    metaInternalType := fun _ => some "CharField"
    typeAttr := none
    relatedAttr := fun _ => .attrMissing
    es_oa_field_tracker := none
    es_pa_field_tracker := none
    es_rd_field_tracker := none
    es_p_field_tracker := some sampleTracker }

/-- An Audio instance with no tracker configured. -/
def sampleAudio : Instance :=
  { modelName := .Audio
    pk := 3
    getattrValue := fun _ => Value.vNone
    callMethod := fun _ => Value.vNone
    hasAttr := fun _ => true
    classProp := fun _ => false
    metaInternalType := fun _ => none
    typeAttr := none
    relatedAttr := fun _ => .attrMissing
    es_oa_field_tracker := none
    es_pa_field_tracker := none
    es_rd_field_tracker := none
    es_p_field_tracker := none }

/-- An ABARating instance (a reverse-related record of a Person). -/
def sampleRating : Instance :=
  { modelName := .ABARating
    pk := 11
    getattrValue := fun _ => Value.vNone
    callMethod := fun _ => Value.vNone
    hasAttr := fun _ => true
    classProp := fun _ => false
    metaInternalType := fun _ => none
    typeAttr := none
    relatedAttr := fun _ => .attrMissing
    es_oa_field_tracker := none
    es_pa_field_tracker := none
    es_rd_field_tracker := none
    es_p_field_tracker := none }

/-- An Education instance whose `person` traversal raises
`ObjectDoesNotExist` (the person was concurrently removed). -/
def sampleEducation : Instance :=
  { modelName := .Education
    pk := 13
    getattrValue := fun _ => Value.vNone
    callMethod := fun _ => Value.vNone
    hasAttr := fun _ => true
    classProp := fun _ => false
    metaInternalType := fun _ => none
    typeAttr := none
    relatedAttr := fun _ => .raisesObjectDoesNotExist
    es_oa_field_tracker := none
    es_pa_field_tracker := none
    es_rd_field_tracker := none
    es_p_field_tracker := none }

/-- An empty environment: nothing indexed, no related objects. -/
def env0 : Env :=
  { indexHas := fun _ _ => false
    dbFilter := fun _ _ _ => []
    resolve := fun _ => samplePerson
    prepareMethod := fun _ _ => none
    indexName := fun _ => "oral_arguments" }

/-- An environment in which the Person query path resolves to person 7, the
index is empty, and no prepare methods are registered. -/
def env1 : Env :=
  { indexHas := fun _ _ => false
    dbFilter := fun m _ _ => if m == .Person then [7] else []
    resolve := fun _ => samplePerson
    prepareMethod := fun _ _ => none
    indexName := fun _ => "people" }

/-- An environment with everything indexed, two related main objects
(1 and 2), and a constant `prepare_panels` projection method. -/
def env2 : Env :=
  { indexHas := fun _ _ => true
    dbFilter := fun _ _ _ => [1, 2]
    resolve := fun p => { sampleAudio with pk := p }
    prepareMethod := fun _ f =>
      if f == "panels" then some (fun i => Value.vInt i.pk) else none
    indexName := fun _ => "oral_arguments" }


/-! ### Helper lemmas -/

theorem update_es_documents_nil_mapping (env : Env) (mm : ModelName)
    (ed : ESDocClass) (inst : Instance) (created : Bool) :
    update_es_documents env mm ed inst created [] = some [] := by
  cases created <;> simp [update_es_documents]

/-! ### Claim theorems -/

/-- C7: the document resolver `get_or_create_doc` returns a found document
with no side effect; on not-found with creation allowed it enqueues exactly
one asynchronous full-creation task and returns `None`; on not-found with
creation suppressed it returns `None` with no side effect. -/
theorem C7_document_resolver (env : Env) (ed : ESDocClass)
    (inst : Instance) :
    (∀ ac : Bool, env.indexHas ed (docIdFor ed inst) = true →
      get_or_create_doc env ed inst ac = (some ⟨ed, docIdFor ed inst⟩, []))
    ∧ (env.indexHas ed (docIdFor ed inst) = false →
      get_or_create_doc env ed inst false
        = (none, [.save_document_in_es inst.pk ed]))
    ∧ (env.indexHas ed (docIdFor ed inst) = false →
      get_or_create_doc env ed inst true = (none, [])) := by
  refine ⟨fun ac h => ?_, fun h => ?_, fun h => ?_⟩ <;>
    simp [get_or_create_doc, h]

/-- C7 witness: the three resolver outcomes at concrete inputs. -/
theorem C7_document_resolver_witness :
    get_or_create_doc env2 .PositionDocument samplePerson true
      = (some ⟨.PositionDocument, .position 7⟩, [])
    ∧ get_or_create_doc env0 .AudioDocument sampleAudio false
      = (none, [.save_document_in_es 3 .AudioDocument])
    ∧ get_or_create_doc env0 .AudioDocument sampleAudio true = (none, []) :=
  ⟨(C7_document_resolver env2 .PositionDocument samplePerson).1 true rfl,
   (C7_document_resolver env0 .AudioDocument sampleAudio).2.1 rfl,
   (C7_document_resolver env0 .AudioDocument sampleAudio).2.2 rfl⟩

/-- C6: `update_es_documents` enqueues nothing for a freshly created
instance, and nothing when the change detector reports no changed tracked
field. -/
theorem C6_created_or_unchanged_skips (env : Env) (mm : ModelName)
    (ed : ESDocClass) (inst : Instance)
    (mf : List (String × FieldsMap)) :
    update_es_documents env mm ed inst true mf = some []
    ∧ (updated_fields inst ed = [] →
        update_es_documents env mm ed inst false mf = some []) := by
  constructor
  · simp [update_es_documents]
  · intro h
    simp [update_es_documents, h]

/-- C6 witness: a freshly created Person, and a Person with no tracker for
PersonDocument, both enqueue nothing. -/
theorem C6_created_or_unchanged_skips_witness :
    update_es_documents env0 .Person .PersonDocument samplePerson true
      [("person", [("name", ["judge"])])] = some []
    ∧ update_es_documents env0 .Person .PersonDocument samplePerson false
      [("person", [("name", ["judge"])])] = some [] :=
  ⟨(C6_created_or_unchanged_skips env0 .Person .PersonDocument samplePerson
      [("person", [("name", ["judge"])])]).1,
   (C6_created_or_unchanged_skips env0 .Person .PersonDocument samplePerson
      [("person", [("name", ["judge"])])]).2 (by decide)⟩

/-- C9: when the reverse-delete handler's lookup-path traversal hits a
concurrently removed intermediate object (`ObjectDoesNotExist`), the cascade
is aborted silently: no task is enqueued and no exception propagates. -/
theorem C9_stale_relation_aborts_silently (env : Env) (mm : ModelName)
    (ed : ESDocClass) (inst : Instance) (qs : String)
    (fm : List (String × List String)) (afs : List String)
    (h1 : affectedFieldsFor inst fm = some afs)
    (h2 : inst.relatedAttr ((qs.splitOn "__").getLastD qs)
      = .raisesObjectDoesNotExist) :
    handle_reverse_actions_delete env true mm ed inst [(qs, fm)]
      = some [] := by
  rw [List.getLastD_eq_getLast?] at h2
  simp [handle_reverse_actions_delete, elasticsearch_enabled,
    reverseDeleteLoop, h1, h2]

/-- C9 witness: deleting an Education record whose person was concurrently
removed enqueues nothing and raises nothing. -/
theorem C9_stale_relation_aborts_silently_witness :
    affectedFieldsFor sampleEducation [("all", ["education"])]
      = some ["education"]
    ∧ handle_reverse_actions_delete env0 true .Person .PersonDocument
        sampleEducation [("person", [("all", ["education"])])] = some [] :=
  ⟨by decide,
   C9_stale_relation_aborts_silently env0 .Person .PersonDocument
     sampleEducation "person" [("all", ["education"])] ["education"]
     (by decide) rfl⟩

/-- C3: a direct save with an empty save mapping that the Audio suppression
gate does not block enqueues exactly one three-step celery chain — save the
full document, evaluate stored alerts, process the alert result — and the
second and third steps carry a result-consuming signature, so neither can
start before its predecessor's result is available. -/
theorem C3_three_step_chain (env : Env) (mm : ModelName) (ed : ESDocClass)
    (inst : Instance) (created : Bool) (uf : Option (List String))
    (h : avoid_es_audio_indexing env inst ed uf = false) :
    handle_save env true mm ed inst created uf []
      = some [.apply_async_chain
          [.save_document_in_es_si inst.pk ed,
           .send_or_schedule_alerts_s (env.indexName ed),
           .process_percolator_response_s]]
    ∧ requiresPreviousResult
        (.send_or_schedule_alerts_s (env.indexName ed)) = true
    ∧ requiresPreviousResult .process_percolator_response_s = true := by
  refine ⟨?_, rfl, rfl⟩
  cases created <;>
    simp [handle_save, elasticsearch_enabled, h,
      update_es_documents_nil_mapping]

/-- C3 witness: an Audio save with touched-fields containing
`processing_complete` enqueues the strict three-step chain. -/
theorem C3_three_step_chain_witness :
    avoid_es_audio_indexing env0 sampleAudio .AudioDocument
      (some ["processing_complete"]) = false
    ∧ handle_save env0 true .Audio .AudioDocument sampleAudio false
        (some ["processing_complete"]) []
      = some [.apply_async_chain
          [.save_document_in_es_si 3 .AudioDocument,
           .send_or_schedule_alerts_s "oral_arguments",
           .process_percolator_response_s]] :=
  ⟨by decide,
   ((C3_three_step_chain env0 .Audio .AudioDocument sampleAudio false
      (some ["processing_complete"]) (by decide)).1).trans (by decide)⟩

/-- C1: a Person save routed to the Position child document through the
`person` query path enqueues exactly one bulk update-children-by-query task
scoped to that person, carrying the changed fields restricted to the map's
keys — never one task per child document. -/
theorem C1_parent_change_single_bulk_task (env : Env) (inst : Instance)
    (fm : FieldsMap) (hP : inst.modelName = .Person)
    (hch : updated_fields inst .PositionDocument ≠ []) :
    update_es_documents env .Person .PositionDocument inst false
      [("person", fm)]
    = some [.update_child_documents_by_query .PositionDocument inst.pk
        (get_fields_to_update (updated_fields inst .PositionDocument) fm)
        (some fm)] := by
  unfold update_es_documents
  have hne : (updated_fields inst .PositionDocument).isEmpty = false := by
    cases h : updated_fields inst .PositionDocument
    · exact absurd h hch
    · rfl
  simp [hne, routeSaveEntry, hP]

/-- C1 witness: changing a Person's `name` mapped into the child Position
document enqueues one bulk task for that person and nothing else. -/
theorem C1_parent_change_single_bulk_task_witness :
    updated_fields samplePerson .PositionDocument = ["name"]
    ∧ update_es_documents env0 .Person .PositionDocument samplePerson false
        [("person", [("name", ["judge"])])]
      = some [.update_child_documents_by_query .PositionDocument 7 ["name"]
          (some [("name", ["judge"])])] :=
  ⟨by decide,
   (C1_parent_change_single_bulk_task env0 samplePerson
      [("name", ["judge"])] rfl (by decide)).trans (by decide)⟩

/-- C4: for an Audio instance, `avoid_es_audio_indexing` reports abort
exactly when the document does not already exist in the index and the
explicit touched-field list is absent or does not contain
`processing_complete`; and when the gate fires with an empty save mapping,
`handle_save` enqueues no task. -/
theorem C4_audio_suppression_gate (env : Env) (ed : ESDocClass)
    (inst : Instance) (uf : Option (List String))
    (hA : inst.modelName = .Audio) :
    (avoid_es_audio_indexing env inst ed uf = true ↔
      env.indexHas ed (.root inst.pk) = false ∧
        (uf = none ∨ ∀ l, uf = some l → "processing_complete" ∉ l))
    ∧ (avoid_es_audio_indexing env inst ed uf = true →
      ∀ mm created, handle_save env true mm ed inst created uf []
        = some []) := by
  constructor
  · unfold avoid_es_audio_indexing
    cases uf with
    | none => simp [hA]
    | some l =>
      cases l with
      | nil => simp [hA]
      | cons a t =>
        simp [hA, List.contains, List.elem_iff]
  · intro h mm created
    cases created <;>
      simp [handle_save, elasticsearch_enabled, h,
        update_es_documents_nil_mapping]

/-- C4 witness: an Audio entity saved with touched-fields `["duration"]`
and never indexed: indexing is suppressed and no task is enqueued. -/
theorem C4_audio_suppression_gate_witness :
    avoid_es_audio_indexing env0 sampleAudio .AudioDocument
      (some ["duration"]) = true
    ∧ handle_save env0 true .Audio .AudioDocument sampleAudio false
        (some ["duration"]) [] = some [] :=
  ⟨by decide,
   (C4_audio_suppression_gate env0 .AudioDocument sampleAudio
      (some ["duration"]) rfl).2 (by decide) .Audio false⟩

/-- C2 counterexample: an ABARating reverse change whose related person has
no PersonDocument in the index still enqueues a bulk update-children task,
refuting "enqueues no task of any kind". -/
theorem C2_counterexample :
    (∀ d : DocId, env1.indexHas .PersonDocument d = false)
    ∧ update_reverse_related_documents env1 .Person .PersonDocument
        sampleRating "person" ["education"]
      = some [.update_child_documents_by_query .PositionDocument 7
          ["education"] none] :=
  ⟨fun _ => rfl, by decide⟩

theorem reverseParentStep_foldl_nil (env : Env) (ed : ESDocClass)
    (inst : Instance) (afs : List String) (l : List Int)
    (habs : ∀ mpk ∈ l,
      env.indexHas ed (docIdFor ed (env.resolve mpk)) = false) :
    ∀ acc : List Task,
      l.foldl (reverseParentStep env ed inst afs) acc = acc := by
  induction l with
  | nil => intro acc; rfl
  | cons a t ih =>
    intro acc
    have ha := habs a (List.mem_cons_self a t)
    have hstep : reverseParentStep env ed inst afs acc a = acc := by
      simp [reverseParentStep, get_or_create_doc, ha]
    rw [List.foldl_cons, hstep]
    exact ih (fun mpk hm => habs mpk (List.mem_cons_of_mem a hm)) acc

/-- C2 (amended): when every resolved parent's document is absent from the
index, the reverse update flow looks the documents up with creation
suppressed, skips every per-parent update, creates nothing and raises no
index error — but any task it still enqueues is a second-level bulk
update-children task, and for (instance model, document) pairs without a
configured second-level bulk update it enqueues nothing at all. -/
theorem C2_absent_parent_skips_update (env : Env) (mm : ModelName)
    (ed : ESDocClass) (inst : Instance) (qs : String) (afs : List String)
    (habs : ∀ mpk ∈ env.dbFilter mm qs inst.pk,
      env.indexHas ed (docIdFor ed (env.resolve mpk)) = false) :
    (∀ ts, update_reverse_related_documents env mm ed inst qs afs = some ts →
      ts.all isBulkChildTask = true)
    ∧ (secondLevelBulkCombo inst.modelName ed = false →
      update_reverse_related_documents env mm ed inst qs afs = some []) := by
  have hnil := reverseParentStep_foldl_nil env ed inst afs
    (env.dbFilter mm qs inst.pk) habs []
  unfold update_reverse_related_documents
  rw [hnil]
  constructor
  · intro ts hts
    split at hts
    · cases hts
      simp only [List.nil_append, List.all_eq_true]
      intro t ht
      rcases List.mem_map.mp ht with ⟨p, _, rfl⟩
      rfl
    · split at hts
      · split at hts
        · cases hts
          simp [isBulkChildTask]
        · cases hts
      · cases hts
        rfl
  · intro hcombo
    unfold secondLevelBulkCombo at hcombo
    rw [Bool.or_eq_false_iff] at hcombo
    simp [hcombo.1, hcombo.2]

/-- C2 witness for the amended claim: an Audio instance (no second-level
bulk combo) whose resolved parent has no indexed document enqueues nothing. -/
theorem C2_absent_parent_skips_update_witness :
    secondLevelBulkCombo sampleAudio.modelName .PersonDocument = false
    ∧ update_reverse_related_documents env1 .Person .PersonDocument
        sampleAudio "person" ["education"] = some [] :=
  ⟨by decide,
   (C2_absent_parent_skips_update env1 .Person .PersonDocument sampleAudio
      "person" ["education"] (fun _ _ => rfl)).2 (by decide)⟩

theorem fieldsToUpdateStep_mem (fm : FieldsMap) (acc : List String)
    (field f : String)
    (hacc : ∀ g ∈ acc, (fm.map Prod.fst).contains g = true)
    (hf : f ∈ fieldsToUpdateStep fm acc field) :
    (fm.map Prod.fst).contains f = true := by
  unfold fieldsToUpdateStep at hf
  split at hf
  case isTrue hfield =>
    simp only [] at hf
    split at hf
    case isTrue hdisp =>
      rcases List.mem_append.mp hf with hf | hf
      · rcases List.mem_append.mp hf with hf | hf
        · exact hacc f hf
        · obtain rfl := List.mem_singleton.mp hf
          exact hfield
      · obtain rfl := List.mem_singleton.mp hf
        exact hdisp
    case isFalse =>
      rcases List.mem_append.mp hf with hf | hf
      · exact hacc f hf
      · obtain rfl := List.mem_singleton.mp hf
        exact hfield
  case isFalse hfield =>
    simp only [] at hf
    split at hf
    case isTrue hdisp =>
      rcases List.mem_append.mp hf with hf | hf
      · exact hacc f hf
      · obtain rfl := List.mem_singleton.mp hf
        exact hdisp
    case isFalse => exact hacc f hf

theorem get_fields_to_update_keys (changed : List String) (fm : FieldsMap) :
    ∀ acc, (∀ g ∈ acc, (fm.map Prod.fst).contains g = true) →
      ∀ f ∈ changed.foldl (fieldsToUpdateStep fm) acc,
        (fm.map Prod.fst).contains f = true := by
  induction changed with
  | nil => intro acc hacc f hf; exact hacc f hf
  | cons a t ih =>
    intro acc hacc f hf
    rw [List.foldl_cons] at hf
    refine ih (fieldsToUpdateStep fm acc a) ?_ f hf
    intro g hg
    exact fieldsToUpdateStep_mem fm acc a g hacc hg

theorem assocLookup_isSome_of_contains {α : Type} (m : List (String × α))
    (k : String) (h : (m.map Prod.fst).contains k = true) :
    (assocLookup m k).isSome = true := by
  have hk : k ∈ m.map Prod.fst := by
    simpa [List.contains, List.elem_iff] using h
  rcases List.mem_map.mp hk with ⟨p, hp, hpk⟩
  unfold assocLookup
  have : (m.find? (fun q => q.fst == k)).isSome = true :=
    List.find?_isSome.mpr ⟨p, hp, by simp [hpk]⟩
  cases hfind : m.find? (fun q => q.fst == k)
  · rw [hfind] at this; cases this
  · rfl

theorem docFieldsStep_foldlM_isSome (env : Env) (main_doc : DocRef)
    (mo inst : Instance) (fm : FieldsMap) (fl : List String)
    (hkeys : ∀ f ∈ fl, (fm.map Prod.fst).contains f = true) :
    ∀ acc,
      (fl.foldlM (docFieldsStep env main_doc mo inst fm) acc).isSome
        = true := by
  induction fl with
  | nil => intro acc; rfl
  | cons a t ih =>
    intro acc
    have ha := hkeys a (List.mem_cons_self a t)
    have hsome := assocLookup_isSome_of_contains fm a ha
    have hstep : ∃ v, docFieldsStep env main_doc mo inst fm acc a = some v := by
      unfold docFieldsStep
      cases hl : assocLookup fm a
      · rw [hl] at hsome; cases hsome
      · exact ⟨_, rfl⟩
    rcases hstep with ⟨v, hv⟩
    rw [List.foldlM_cons]
    simpa [hv] using
      ih (fun f hf => hkeys f (List.mem_cons_of_mem a hf)) v

/-- C10: every element returned by `get_fields_to_update` is a key of the
given fields map (plain names and `get_<field>_display` variants alike), so
`document_fields_to_update` applied to that list never fails its
`fields_map` lookup. -/
theorem C10_field_list_always_resolvable (changed : List String)
    (fm : FieldsMap) :
    (∀ f ∈ get_fields_to_update changed fm,
      (fm.map Prod.fst).contains f = true)
    ∧ ∀ (env : Env) (main_doc : DocRef) (mo inst : Instance),
      (document_fields_to_update env main_doc mo
        (get_fields_to_update changed fm) inst fm).isSome = true := by
  have hsub : ∀ f ∈ get_fields_to_update changed fm,
      (fm.map Prod.fst).contains f = true := by
    unfold get_fields_to_update
    exact get_fields_to_update_keys changed fm []
      (fun g hg => absurd hg (List.not_mem_nil g))
  refine ⟨hsub, ?_⟩
  intro env main_doc mo inst
  unfold document_fields_to_update
  exact docFieldsStep_foldlM_isSome env main_doc mo inst fm _ hsub []

/-- C10 witness: a changed-field list with one mapped and one unmapped
field resolves safely against the map. -/
theorem C10_field_list_always_resolvable_witness :
    (("name" ∈ get_fields_to_update ["name", "zzz"] [("name", ["judge"])]) →
      ([("name", ["judge"])].map Prod.fst).contains "name" = true)
    ∧ (document_fields_to_update env0 ⟨.PersonDocument, .root 7⟩
        samplePerson (get_fields_to_update ["name", "zzz"]
          [("name", ["judge"])]) samplePerson
        [("name", ["judge"])]).isSome = true :=
  ⟨fun h =>
    (C10_field_list_always_resolvable ["name", "zzz"]
      [("name", ["judge"])]).1 "name" h,
   (C10_field_list_always_resolvable ["name", "zzz"]
      [("name", ["judge"])]).2 env0 ⟨.PersonDocument, .root 7⟩
     samplePerson samplePerson⟩

theorem changedFieldsStep_foldl_mem (inst : Instance) (tr : Tracker)
    (fields : List String) :
    ∀ (acc : List String) (f : String),
      f ∈ fields.foldl (changedFieldsStep inst tr) acc ↔
        f ∈ acc ∨ (f ∈ fields ∧ fieldChanged inst tr f = some true) := by
  induction fields with
  | nil => intro acc f; simp
  | cons a t ih =>
    intro acc f
    rw [List.foldl_cons, ih]
    unfold changedFieldsStep
    cases hc : fieldChanged inst tr a with
    | none =>
      simp only [List.mem_cons]
      constructor
      · rintro (hf | ⟨hft, hP⟩)
        · exact Or.inl hf
        · exact Or.inr ⟨Or.inr hft, hP⟩
      · rintro (hf | ⟨rfl | hft, hP⟩)
        · exact Or.inl hf
        · rw [hP] at hc; cases hc
        · exact Or.inr ⟨hft, hP⟩
    | some b =>
      cases b with
      | true =>
        simp only [List.mem_append, List.mem_cons, List.not_mem_nil,
          or_false, List.mem_singleton]
        constructor
        · rintro ((hf | rfl) | ⟨hft, hP⟩)
          · exact Or.inl hf
          · exact Or.inr ⟨Or.inl rfl, hc⟩
          · exact Or.inr ⟨Or.inr hft, hP⟩
        · rintro (hf | ⟨rfl | hft, hP⟩)
          · exact Or.inl (Or.inl hf)
          · exact Or.inl (Or.inr rfl)
          · exact Or.inr ⟨hft, hP⟩
      | false =>
        simp only [List.mem_cons]
        constructor
        · rintro (hf | ⟨hft, hP⟩)
          · exact Or.inl hf
          · exact Or.inr ⟨Or.inr hft, hP⟩
        · rintro (hf | ⟨rfl | hft, hP⟩)
          · exact Or.inl hf
          · rw [hP] at hc; cases hc
          · exact Or.inr ⟨hft, hP⟩

/-- C5: the field-change detector returns the empty list when no tracker is
configured for the (instance, document type) pair; with a tracker, a field
is reported iff it is tracked and its resolved current value differs from
the snapshot; a truthy ForeignKey field not named `*_id` is compared by its
related object's primary key; and a tracked class property (no model field
metadata) is tolerated and compared by direct attribute read. -/
theorem C5_change_detector (inst : Instance) (ed : ESDocClass) :
    (trackedSetFor inst ed = none → updated_fields inst ed = [])
    ∧ (∀ tr, trackedSetFor inst ed = some tr →
      ∀ f, f ∈ updated_fields inst ed ↔
        f ∈ tr.fields ∧ fieldChanged inst tr f = some true)
    ∧ (∀ (tr : Tracker) (f : String) (p : Int),
      inst.metaInternalType f = some "ForeignKey" →
      inst.getattrValue f = .vObj p → strEndsWith f "_id" = false →
      fieldChanged inst tr f = some (Value.vInt p != tr.previous f))
    ∧ (∀ (tr : Tracker) (f : String),
      inst.metaInternalType f = none → inst.classProp f = true →
      fieldChanged inst tr f
        = some (inst.getattrValue f != tr.previous f)) := by
  refine ⟨fun h => ?_, fun tr htr f => ?_, fun tr f p h1 h2 h3 => ?_,
    fun tr f h1 h2 => ?_⟩
  · simp [updated_fields, h]
  · unfold updated_fields
    rw [htr]
    rw [changedFieldsStep_foldl_mem inst tr tr.fields []]
    simp
  · simp [fieldChanged, h1, h2, h3, Value.truthy, Value.pkAttr]
  · simp [fieldChanged, h1, h2]

/-- A Position instance: `person` is a ForeignKey currently resolving to
pk 9 (unchanged against the snapshot), `is_judge` a tracked class property
whose value differs from the snapshot. -/
def samplePosition : Instance :=
  { modelName := .OtherModel "position"
    pk := 21
    getattrValue := fun f =>
      if f == "person" then Value.vObj 9 else Value.vStr "x"
    callMethod := fun _ => Value.vNone
    hasAttr := fun f => !(f == "is_judge")
    classProp := fun f => f == "is_judge"
    metaInternalType := fun f =>
      if f == "person" then some "ForeignKey"
      else if f == "is_judge" then none
      else some "CharField"
    typeAttr := none
    relatedAttr := fun _ => .attrMissing
    es_oa_field_tracker := none
    es_pa_field_tracker := none
    es_rd_field_tracker := none
    es_p_field_tracker :=
      some { fields := ["person", "is_judge"]
             previous := fun _ => Value.vInt 9 } }

/-- C5 witness: no tracker gives `[]`; the membership characterization at a
concrete tracked field; FK comparison by pk judges `person` unchanged; the
`is_judge` property is tolerated and compared by attribute read. -/
theorem C5_change_detector_witness :
    updated_fields sampleAudio .AudioDocument = []
    ∧ ("is_judge" ∈ updated_fields samplePosition .PositionDocument ↔
        "is_judge" ∈ ["person", "is_judge"]
          ∧ fieldChanged samplePosition
              { fields := ["person", "is_judge"]
                previous := fun _ => Value.vInt 9 } "is_judge" = some true)
    ∧ fieldChanged samplePosition
        { fields := ["person", "is_judge"]
          previous := fun _ => Value.vInt 9 } "person"
      = some (Value.vInt 9 != Value.vInt 9)
    ∧ fieldChanged samplePosition
        { fields := ["person", "is_judge"]
          previous := fun _ => Value.vInt 9 } "is_judge"
      = some (Value.vStr "x" != Value.vInt 9) :=
  ⟨(C5_change_detector sampleAudio .AudioDocument).1 rfl,
   (C5_change_detector samplePosition .PositionDocument).2.1
     { fields := ["person", "is_judge"]
       previous := fun _ => Value.vInt 9 } rfl "is_judge",
   (C5_change_detector samplePosition .PositionDocument).2.2.1
     { fields := ["person", "is_judge"]
       previous := fun _ => Value.vInt 9 } "person" 9 rfl rfl (by decide),
   (C5_change_detector samplePosition .PositionDocument).2.2.2
     { fields := ["person", "is_judge"]
       previous := fun _ => Value.vInt 9 } "is_judge" rfl rfl⟩

theorem m2mFilteredStep_foldlM (env : Env) (ed : ESDocClass) (af : String)
    (p : Instance → Value) (hp : env.prepareMethod ed af = some p)
    (l : List Int)
    (hidx : ∀ mpk ∈ l,
      env.indexHas ed (docIdFor ed (env.resolve mpk)) = true) :
    ∀ ts, l.foldlM (m2mFilteredStep env ed af) ts
      = some (ts ++ l.map (fun mpk =>
          Task.update_document_in_es ⟨ed, docIdFor ed (env.resolve mpk)⟩
            [(af, p (env.resolve mpk))])) := by
  induction l with
  | nil => intro ts; simp
  | cons a t ih =>
    intro ts
    have ha := hidx a (List.mem_cons_self a t)
    have hstep : m2mFilteredStep env ed af ts a
        = some (ts ++ [Task.update_document_in_es
            ⟨ed, docIdFor ed (env.resolve a)⟩
            [(af, p (env.resolve a))]]) := by
      simp [m2mFilteredStep, update_m2m_field_in_es_document,
        get_or_create_doc, ha, hp]
    rw [List.foldlM_cons, hstep]
    show t.foldlM (m2mFilteredStep env ed af) _ = _
    rw [ih (fun mpk hm => hidx mpk (List.mem_cons_of_mem a hm))]
    simp

/-- C8: the m2m handler dispatches only for the `post_add` and `post_remove`
actions — every other action enqueues nothing; for a qualifying action with
a single mapping entry, the affected field is recomputed via the document's
registered `prepare_` re-projection and overwritten: once for the instance
itself when the entry's key names the main model, and otherwise exactly once
per currently related main entity. -/
theorem C8_m2m_dispatch (env : Env) (mm : ModelName) (ed : ESDocClass)
    (inst : Instance) (mf : List (String × FieldsMap)) :
    (∀ action : String, action ≠ "post_add" → action ≠ "post_remove" →
      handle_m2m env true mm ed inst action mf = some [])
    ∧ (∀ fm af dfs fmrest p, mf = [(mm.lowerName, fm)] →
        fm = (af, dfs) :: fmrest →
        env.indexHas ed (docIdFor ed inst) = true →
        env.prepareMethod ed af = some p →
        handle_m2m env true mm ed inst "post_remove" mf
          = some [.update_document_in_es ⟨ed, docIdFor ed inst⟩
              [(af, p inst)]])
    ∧ (∀ key fm af dfs fmrest p, mf = [(key, fm)] →
        fm = (af, dfs) :: fmrest → mm.lowerName ≠ key →
        env.prepareMethod ed af = some p →
        (∀ mpk ∈ env.dbFilter mm key inst.pk,
          env.indexHas ed (docIdFor ed (env.resolve mpk)) = true) →
        handle_m2m env true mm ed inst "post_remove" mf
          = some ((env.dbFilter mm key inst.pk).map (fun mpk =>
              .update_document_in_es ⟨ed, docIdFor ed (env.resolve mpk)⟩
                [(af, p (env.resolve mpk))]))) := by
  refine ⟨fun action h1 h2 => ?_, ?_, ?_⟩
  · simp [handle_m2m, elasticsearch_enabled, h1, h2]
  · rintro fm af dfs fmrest p rfl rfl hidx hp
    simp [handle_m2m, elasticsearch_enabled, update_remove_m2m_documents,
      update_m2m_field_in_es_document, get_or_create_doc, hidx, hp]
  · rintro key fm af dfs fmrest p rfl rfl hne hp hidx
    have hb : (mm.lowerName != key) = true := by
      simp [bne_iff_ne, hne]
    simp only [handle_m2m, elasticsearch_enabled, if_true,
      List.foldlM_cons, List.foldlM_nil, List.map_cons,
      update_remove_m2m_documents, hb]
    rw [m2mFilteredStep_foldlM env ed af p hp
      (env.dbFilter mm key inst.pk) hidx []]
    simp

/-- C8 witness: a `pre_add` action enqueues nothing; a `post_remove` on the
instance itself yields one overwrite task; a `post_remove` resolved through
a non-main-model key yields exactly one overwrite task per related entity. -/
theorem C8_m2m_dispatch_witness :
    handle_m2m env2 true .Audio .AudioDocument sampleAudio "pre_add"
      [("audio", [("panels", ["panels"])])] = some []
    ∧ handle_m2m env2 true .Audio .AudioDocument sampleAudio "post_remove"
        [("audio", [("panels", ["panels"])])]
      = some [.update_document_in_es ⟨.AudioDocument, .root 3⟩
          [("panels", Value.vInt 3)]]
    ∧ handle_m2m env2 true (.OtherModel "parentheticalgroup") .AudioDocument
        sampleAudio "post_remove" [("audio", [("panels", ["panels"])])]
      = some [.update_document_in_es ⟨.AudioDocument, .root 1⟩
          [("panels", Value.vInt 1)],
          .update_document_in_es ⟨.AudioDocument, .root 2⟩
          [("panels", Value.vInt 2)]] :=
  ⟨(C8_m2m_dispatch env2 .Audio .AudioDocument sampleAudio
      [("audio", [("panels", ["panels"])])]).1 "pre_add"
      (by decide) (by decide),
   ((C8_m2m_dispatch env2 .Audio .AudioDocument sampleAudio
      [("audio", [("panels", ["panels"])])]).2.1 [("panels", ["panels"])]
      "panels" ["panels"] [] (fun i => Value.vInt i.pk) rfl rfl rfl
      rfl).trans (by decide),
   ((C8_m2m_dispatch env2 (.OtherModel "parentheticalgroup") .AudioDocument
      sampleAudio [("audio", [("panels", ["panels"])])]).2.2 "audio"
      [("panels", ["panels"])] "panels" ["panels"] []
      (fun i => Value.vInt i.pk) rfl rfl (by decide) rfl
      (fun _ _ => rfl)).trans (by decide)⟩

end ESSync
